import Mathlib

/-!
Verification of the logrus-logstash-hook repository: a log-forwarding
adapter consisting of an options validator, two hook variants (the
current `Hook` and the `LegacyHook`), a field-merge step, a prefix-based
field filter, and a Logstash JSON formatter.

Modelling conventions:
- Go `error` values produced by this package are created with
  `errors.New(message)` and compared by message; we model an error as its
  message string (`Err := String`).
- Go maps (`logrus.Fields`) are modelled extensionally as partial
  functions `String → Option JValue`; the merge loop in `Fire` inserts a
  context key only when it is absent from the entry, so its result is
  independent of Go's unspecified map-iteration order and the extensional
  model is exact.
- JSON-compatible field values are modelled by the inductive `JValue`.
- The payload a formatter produces and a writer consumes is an abstract
  type `β`: the byte-level encoding lives entirely inside the formatter
  implementation, which is not part of the verified sources. A formatter
  is `Entry → Except Err β` (it may fail), a writer is
  `β → Except Err Unit` (the Go `io.Writer` result is checked only for
  its error component).
- Timestamps are carried as their RFC3339 rendering (a string); the Go
  zero-value `time.Time` renders as "0001-01-01T00:00:00Z".
-/

/-! Concrete fixtures used by witnesses and counterexamples. -/

/-- Errors are identified by their message, as built by errors.New. -/
abbrev Err := String

/-- A JSON-compatible dynamic field value. -/
inductive JValue where
  | str (s : String)
  | num (n : Int)
  | bool (b : Bool)
  | null
  deriving DecidableEq, Repr

/-- A Go map from field name to value, modelled extensionally. -/
abbrev Fields := String → Option JValue

/-- The empty field mapping (logrus.Fields with no entries). -/
def emptyFields : Fields := fun _ => none

/-- The six logrus severity levels, ordered from most to least severe. -/
inductive Level where
  | panic
  | fatal
  | error
  | warn
  | info
  | debug
  deriving DecidableEq, Repr

/-- The lowercase name of a severity level, as emitted in the record. -/
def Level.name : Level → String
  | .panic => "panic"
  | .fatal => "fatal"
  | .error => "error"
  | .warn => "warn"
  | .info => "info"
  | .debug => "debug"

/-- A logrus.Entry: severity, message, timestamp (RFC3339 string) and
the mutable field mapping. -/
structure Entry where
  level : Level
  message : String
  time : String
  data : Fields

/-- The RFC3339 rendering of the Go zero-value time.Time. -/
def zeroTime : String := "0001-01-01T00:00:00Z"

/-- The merge loop shared by Hook.Fire and LegacyHook.Fire: every key of
ctx that is absent from data is inserted with ctx's value; keys already
present in data are never overwritten. -/
def mergeFields (data : Fields) (ctx : Fields) : Fields := fun k =>
  match data k with
  | some v => some v
  | none => ctx k

/-- strings.HasPrefix: pfx's characters are an initial segment of k's.
On valid UTF-8 strings the Go byte-level test and the character-level
test coincide, UTF-8 being a prefix code. -/
def hasPrefix (k pfx : String) : Bool := pfx.data.isPrefixOf k.data

/-- LegacyHook.filterHookOnly as a pure function on the field mapping:
when the configured prefix is nonempty, delete every key that starts
with it; when it is empty, do nothing. -/
def filterHookOnly (pfx : String) (data : Fields) : Fields :=
  if pfx ≠ "" then
    fun k => if hasPrefix k pfx then none else data k
  else data

/-- The current Hook: a writer, a static context field mapping, and an
optional formatter (the Go field is a nilable interface value). -/
structure Hook (β : Type) where
  conn : β → Except Err Unit
  ctx : Fields
  formatter : Option (Entry → Except Err β)

/-- The Options record for New. -/
structure Options (β : Type) where
  conn : Option (β → Except Err Unit)
  protocol : String
  address : String
  appName : String
  fields : Option Fields
  formatter : Option (Entry → Except Err β)

/-- Error message for a configuration with no usable connection source. -/
def msgMissingConn : Err := "Missing connection details"

/-- Error message for a configuration giving both a writer and a
protocol or address. -/
def msgAmbiguousConn : Err := "Specify Conn or Address and Protocol"

/-- Error message for a configuration giving both an application name
and a custom formatter. -/
def msgAmbiguousFormatter : Err := "Specify AppName or Formatter"

/-- validOptions: three checks in fixed order, success is none. -/
def validOptions {β : Type} (opts : Options β) : Option Err :=
  if opts.conn.isNone ∧ (opts.address = "" ∨ opts.protocol = "") then
    some msgMissingConn
  else if opts.conn.isSome ∧ (opts.address ≠ "" ∨ opts.protocol ≠ "") then
    some msgAmbiguousConn
  else if opts.appName ≠ "" ∧ opts.formatter.isSome then
    some msgAmbiguousFormatter
  else
    none

/-- New: validate, obtain the connection (the given writer, or dial the
protocol and address — net.Dial is an external collaborator passed in as
`dial`), pick the formatter (the default one bound to the application
name and schema version "1" when an application name is given, otherwise
the caller-supplied one — the default formatter implementation is not in
the verified sources and is passed in as `defFmt`), and default the
context field mapping to empty. -/
def New {β : Type} (dial : String → String → Except Err (β → Except Err Unit))
    (defFmt : String → String → Entry → Except Err β)
    (opts : Options β) : Except Err (Hook β) :=
  match validOptions opts with
  | some err => .error err
  | none =>
    let connRes : Except Err (β → Except Err Unit) :=
      match opts.conn with
      | some c => .ok c
      | none => dial opts.protocol opts.address
    match connRes with
    | .error e => .error e
    | .ok conn =>
      let frmtr : Option (Entry → Except Err β) :=
        if opts.appName ≠ "" then some (defFmt opts.appName "1")
        else opts.formatter
      let ctx : Fields :=
        match opts.fields with
        | none => emptyFields
        | some f => f
      .ok { conn := conn, ctx := ctx, formatter := frmtr }

/-- Hook.Fire: merge the static context into the entry's data (never
overwriting), format the entry, then write the payload, returning the
first error encountered. A `none` result models the Go panic from
dereferencing a nil formatter interface; otherwise the pair is Fire's
return value together with the entry's field mapping after Fire. -/
def Hook.Fire {β : Type} (h : Hook β) (e : Entry) :
    Option (Except Err Unit × Fields) :=
  let data := mergeFields e.data h.ctx
  match h.formatter with
  | none => none
  | some f =>
    match f { e with data := data } with
    | .error err => some (.error err, data)
    | .ok b =>
      match h.conn b with
      | .error err => some (.error err, data)
      | .ok _ => some (.ok (), data)

/-- The list of all six severity levels, in the order the source
declares them. -/
def allLevels : List Level :=
  [.panic, .fatal, .error, .warn, .info, .debug]

/-- Hook.Levels returns the full severity list. -/
def Hook.Levels {β : Type} (_h : Hook β) : List Level := allLevels

/-- The legacy hook: an optional connection (nil in filter-only mode),
an application name, the always-sent static fields, and the hook-only
field-name prefix. -/
structure LegacyHook (β : Type) where
  conn : Option (β → Except Err Unit)
  appName : String
  alwaysSentFields : Fields
  hookOnlyPfx : String

/-- NewFilterHookWithPrefix: a legacy hook with no connection that only
enforces the given prefix rule. -/
def NewFilterHookWithPfx (β : Type) (pfx : String) : LegacyHook β :=
  { conn := none, appName := "", alwaysSentFields := emptyFields,
    hookOnlyPfx := pfx }

/-- NewFilterHook: the filter-only hook with the default empty prefix. -/
def NewFilterHook (β : Type) : LegacyHook β := NewFilterHookWithPfx β ""

/-- LegacyHook.Fire: merge the always-sent fields into the entry's data
(never overwriting); in filter-only mode (no connection) stop there with
success, otherwise format the entry with the hook-only prefix and write
the payload, returning the first error. The deferred filterHookOnly call
runs on every exit path, so the entry's final field mapping is the
filtered merged mapping regardless of the result. `fmt` stands for
LogstashFormatter.FormatWithPrefix applied to the hook's application
name, whose implementation is not in the verified sources; per the
formatter contract it does not mutate the entry's field mapping. -/
def LegacyHook.Fire {β : Type} (h : LegacyHook β)
    (fmt : String → Entry → String → Except Err β) (e : Entry) :
    Except Err Unit × Fields :=
  let data := mergeFields e.data h.alwaysSentFields
  let res : Except Err Unit :=
    match h.conn with
    | none => .ok ()
    | some write =>
      match fmt h.appName { e with data := data } h.hookOnlyPfx with
      | .error err => .error err
      | .ok b =>
        match write b with
        | .error err => .error err
        | .ok _ => .ok ()
  (res, filterHookOnly h.hookOnlyPfx data)

/-- LegacyHook.Levels returns the full severity list. -/
def LegacyHook.Levels {β : Type} (_h : LegacyHook β) : List Level := allLevels

/-- Modelled from the spec: the default Logstash formatter
(defaultFormatter / LogstashFormatter, whose implementation is not under
the verified sources; only its callers are). Per the spec it serializes
the entry as a JSON object holding the entry's full field mapping plus
the five reserved keys, with the reserved keys computed last so user
fields never override them: @timestamp is the RFC3339 timestamp,
@version the schema version, @level the lowercase severity name,
@message the message, and type the application name. We model the
serialized record at the JSON-object level, as the field mapping of that
object (the spec's round-trip property compares JSON objects). -/
def logstashRecord (appName ver : String) (e : Entry) : Fields := fun k =>
  if k = "@timestamp" then some (.str e.time)
  else if k = "@version" then some (.str ver)
  else if k = "@level" then some (.str e.level.name)
  else if k = "@message" then some (.str e.message)
  else if k = "type" then some (.str appName)
  else e.data k

/-- A writer that always succeeds. -/
def okWriter : Unit → Except Err Unit := fun _ => .ok ()

/-- A writer that always fails with the message "write error". -/
def failWriter : Unit → Except Err Unit := fun _ => .error "write error"

/-- A legacy formatter stand-in that always succeeds. -/
def fmtOkU : String → Entry → String → Except Err Unit := fun _ _ _ => .ok ()

/-- A legacy formatter stand-in that always fails with "format error". -/
def fmtFailU : String → Entry → String → Except Err Unit :=
  fun _ _ _ => .error "format error"

/-- A dial function that always yields the succeeding writer. -/
def dialOkU : String → String → Except Err (Unit → Except Err Unit) :=
  fun _ _ => .ok okWriter

/-- A default-formatter stand-in over the Unit payload. -/
def defFmtU : String → String → Entry → Except Err Unit := fun _ _ _ => .ok ()

/-- An entry with empty data. -/
def entryEmpty : Entry :=
  { level := .info, message := "m", time := zeroTime, data := emptyFields }

/-- An entry whose data holds the single hook-only key `_x`. -/
def entryPfx : Entry :=
  { level := .debug, message := "", time := zeroTime,
    data := fun k => if k = "_x" then some (.str "1") else none }

/-- Options supplying only an address. -/
def optsOnlyAddr : Options Unit :=
  { conn := none, protocol := "", address := "localhost:8989", appName := "",
    fields := none, formatter := none }

/-- Options supplying only a protocol. -/
def optsOnlyProto : Options Unit :=
  { conn := none, protocol := "tcp", address := "", appName := "",
    fields := none, formatter := none }

/-- Options supplying a writer together with a protocol. -/
def optsConnAndProto : Options Unit :=
  { conn := some okWriter, protocol := "tcp", address := "", appName := "",
    fields := none, formatter := none }

/-- A static field mapping holding the single hook-only key `_h`. -/
def staticPfxFields : Fields :=
  fun k => if k = "_h" then some (.str "v") else none

/-- A legacy hook with prefix "_" whose always-sent fields hold `_h`. -/
def legacyHookPfxStatic : LegacyHook Unit :=
  { conn := none, appName := "", alwaysSentFields := staticPfxFields,
    hookOnlyPfx := "_" }

/-- A static context mapping holding the single key `s`. -/
def ctxS : Fields := fun k => if k = "s" then some (.str "sv") else none

/-- An entry whose data holds the single key `a`. -/
def entryA : Entry :=
  { level := .info, message := "m", time := zeroTime,
    data := fun k => if k = "a" then some (.str "av") else none }

/-- A current-hook formatter that always succeeds. -/
def fOkU : Entry → Except Err Unit := fun _ => .ok ()

/-- A current hook with context `s`, a succeeding writer and formatter. -/
def hookS : Hook Unit :=
  { conn := okWriter, ctx := ctxS, formatter := some fOkU }

/-- A current-hook formatter that always fails with "format error". -/
def fFailU : Entry → Except Err Unit := fun _ => .error "format error"

/-- A current hook with failing formatter and succeeding writer. -/
def hookFmtFail : Hook Unit :=
  { conn := okWriter, ctx := emptyFields, formatter := some fFailU }

/-- A current hook with failing formatter and failing writer. -/
def hookFmtFailWFail : Hook Unit :=
  { conn := failWriter, ctx := emptyFields, formatter := some fFailU }

/-- A current hook with succeeding formatter and failing writer. -/
def hookWFail : Hook Unit :=
  { conn := failWriter, ctx := emptyFields, formatter := some fOkU }

/-- A current hook with succeeding formatter and writer. -/
def hookAllOk : Hook Unit :=
  { conn := okWriter, ctx := emptyFields, formatter := some fOkU }

/-- A legacy hook holding the succeeding writer. -/
def lhookWOk : LegacyHook Unit :=
  { conn := some okWriter, appName := "app", alwaysSentFields := emptyFields,
    hookOnlyPfx := "" }

/-- A legacy hook holding the failing writer. -/
def lhookWFail : LegacyHook Unit :=
  { conn := some failWriter, appName := "app", alwaysSentFields := emptyFields,
    hookOnlyPfx := "" }

/-- The round-trip entry: field mapping holding only id, level panic,
message hello world, zero-value timestamp. -/
def entryRT : Entry :=
  { level := .panic, message := "hello world", time := zeroTime,
    data := fun k => if k = "id" then some (.str "a1") else none }

/-- The JSON object the round-trip claim expects, as a field mapping. -/
def expectedRT : Fields := fun k =>
  if k = "id" then some (.str "a1")
  else if k = "@message" then some (.str "hello world")
  else if k = "@level" then some (.str "panic")
  else if k = "@timestamp" then some (.str "0001-01-01T00:00:00Z")
  else if k = "type" then some (.str "test1")
  else if k = "@version" then some (.str "1")
  else none

/-- Whether the Options carry exactly one usable connection source:
either a writer and no protocol/address, or no writer and a complete
protocol/address pair. -/
def connSourceOk {β : Type} (opts : Options β) : Prop :=
  (opts.conn.isSome ∧ opts.address = "" ∧ opts.protocol = "")
  ∨ (opts.conn.isNone ∧ opts.address ≠ "" ∧ opts.protocol ≠ "")

/-- Options supplying only a pre-built writer: valid, yet carrying no
formatter source. -/
def optsConnOnly : Options Unit :=
  { conn := some okWriter, protocol := "", address := "", appName := "",
    fields := none, formatter := none }

/-- The hook New builds from optsConnOnly: its formatter is nil. -/
def hookNilFmt : Hook Unit :=
  { conn := okWriter, ctx := emptyFields, formatter := none }

/-- Helper: any Hook.Fire result that is not the nil-formatter crash
carries the merged field mapping as the entry's final data. -/
theorem hook_fire_data (β : Type) (h : Hook β) (e : Entry)
    (r : Except Err Unit) (d : Fields) (hf : h.Fire e = some (r, d)) :
    d = mergeFields e.data h.ctx := by
  simp only [Hook.Fire] at hf
  split at hf
  · exact absurd hf (by simp)
  · split at hf
    · simp at hf; exact hf.2.symm
    · split at hf
      · simp at hf; exact hf.2.symm
      · simp at hf; exact hf.2.symm

/-- C2: validOptions is a pure function of the configuration record that
returns success or exactly one of three error conditions, checked in
this fixed order: (1) no connection source (no writer and an incomplete
protocol/address pair) yields the missing-connection error; (2) a writer
together with a protocol or address yields the ambiguous-connection
error; (3) an application name together with a custom formatter yields
the ambiguous-formatter error; otherwise success. -/
theorem validOptions_three_errors_fixed_order (β : Type) (opts : Options β) :
    (validOptions opts = some msgMissingConn ↔
      (opts.conn.isNone ∧ (opts.address = "" ∨ opts.protocol = "")))
  ∧ (validOptions opts = some msgAmbiguousConn ↔
      (¬(opts.conn.isNone ∧ (opts.address = "" ∨ opts.protocol = ""))
        ∧ opts.conn.isSome ∧ (opts.address ≠ "" ∨ opts.protocol ≠ "")))
  ∧ (validOptions opts = some msgAmbiguousFormatter ↔
      (¬(opts.conn.isNone ∧ (opts.address = "" ∨ opts.protocol = ""))
        ∧ ¬(opts.conn.isSome ∧ (opts.address ≠ "" ∨ opts.protocol ≠ ""))
        ∧ opts.appName ≠ "" ∧ opts.formatter.isSome))
  ∧ (validOptions opts = none ↔
      (¬(opts.conn.isNone ∧ (opts.address = "" ∨ opts.protocol = ""))
        ∧ ¬(opts.conn.isSome ∧ (opts.address ≠ "" ∨ opts.protocol ≠ ""))
        ∧ ¬(opts.appName ≠ "" ∧ opts.formatter.isSome))) := by
  unfold validOptions
  split_ifs with h1 h2 h3 <;>
    simp_all [msgMissingConn, msgAmbiguousConn, msgAmbiguousFormatter]

/-- C7: the Levels method of both hook variants returns exactly the list
of all six severities in the order panic, fatal, error, warn, info,
debug, and every severity is in that list (no level filtering). -/
theorem levels_all_six_in_order (β : Type) (h : Hook β) (hl : LegacyHook β) :
    h.Levels = [.panic, .fatal, .error, .warn, .info, .debug]
  ∧ hl.Levels = [.panic, .fatal, .error, .warn, .info, .debug]
  ∧ ∀ l : Level, l ∈ h.Levels ∧ l ∈ hl.Levels := by
  refine ⟨rfl, rfl, fun l => ?_⟩
  cases l <;> simp [Hook.Levels, LegacyHook.Levels, allLevels]

/-- C9: an incomplete protocol/address pair is classified asymmetrically:
with no writer, supplying only an address or only a protocol fails with
the missing-connection error (the pair counts as unset); with a writer,
supplying even one of protocol or address fails with the
ambiguous-connection error (the pair counts as set). -/
theorem validOptions_partial_pair_asymmetry (β : Type) (opts : Options β) :
    (opts.conn.isNone → opts.protocol = "" → opts.address ≠ "" →
      validOptions opts = some msgMissingConn)
  ∧ (opts.conn.isNone → opts.address = "" → opts.protocol ≠ "" →
      validOptions opts = some msgMissingConn)
  ∧ (opts.conn.isSome → (opts.address ≠ "" ∨ opts.protocol ≠ "") →
      validOptions opts = some msgAmbiguousConn) := by
  unfold validOptions
  refine ⟨fun hc hp ha => ?_, fun hc ha hp => ?_, fun hc hap => ?_⟩ <;>
    split_ifs with h1 h2 h3 <;>
    simp_all [Option.isNone_iff_eq_none, Option.isSome_iff_exists]

/-- C9 witness: the three classifications at concrete configurations. -/
theorem validOptions_partial_pair_asymmetry_witness :
    validOptions optsOnlyAddr = some msgMissingConn
  ∧ validOptions optsOnlyProto = some msgMissingConn
  ∧ validOptions optsConnAndProto = some msgAmbiguousConn :=
  ⟨(validOptions_partial_pair_asymmetry Unit optsOnlyAddr).1 rfl rfl
      (by decide),
   (validOptions_partial_pair_asymmetry Unit optsOnlyProto).2.1 rfl rfl
      (by decide),
   (validOptions_partial_pair_asymmetry Unit optsConnAndProto).2.2 rfl
      (Or.inr (by decide))⟩

/-- C3 counterexample: with the default empty prefix (NewFilterHook),
every key starts with the configured prefix, yet Fire removes nothing —
the key "_x" survives Fire, refuting removal for every configured
prefix. -/
theorem empty_prefix_key_survives_fire :
    hasPrefix "_x" (NewFilterHook Unit).hookOnlyPfx = true
  ∧ ((NewFilterHook Unit).Fire fmtOkU entryPfx).2 "_x" = some (.str "1") := by
  constructor
  · rfl
  · rfl

/-- C3 amended: for every entry and every NONEMPTY configured hook-only
prefix, on every exit path of LegacyHook.Fire — any formatter outcome,
any writer outcome, with or without a connection — every key of the
entry's field mapping that starts with the prefix is removed before Fire
returns (the deferred filterHookOnly runs on every exit path). With the
empty prefix the filter is a no-op. -/
theorem legacy_fire_removes_prefixed_keys (β : Type) (hl : LegacyHook β)
    (fmt : String → Entry → String → Except Err β) (e : Entry) (k : String)
    (hp : hl.hookOnlyPfx ≠ "") (hk : hasPrefix k hl.hookOnlyPfx = true) :
    (hl.Fire fmt e).2 k = none := by
  simp [LegacyHook.Fire, filterHookOnly, hp, hk]

/-- C3 witness: a prefix-"_" hook removes the key "_x" on a concrete
Fire call. -/
theorem legacy_fire_removes_prefixed_keys_witness :
    ((NewFilterHookWithPfx Unit "_").Fire fmtOkU entryPfx).2 "_x" = none :=
  legacy_fire_removes_prefixed_keys Unit (NewFilterHookWithPfx Unit "_")
    fmtOkU entryPfx "_x" (by decide) (by decide)

/-- C4: a LegacyHook with no connection (filter-only mode) performs the
static-field merge and the prefix filtering, returns success for every
entry, and its result does not depend on the formatter — no
serialization and no write happen. -/
theorem legacy_fire_filter_only_mode (β : Type) (hl : LegacyHook β)
    (fmt fmt' : String → Entry → String → Except Err β) (e : Entry)
    (hc : hl.conn = none) :
    hl.Fire fmt e =
      (.ok (),
        filterHookOnly hl.hookOnlyPfx (mergeFields e.data hl.alwaysSentFields))
  ∧ hl.Fire fmt e = hl.Fire fmt' e := by
  simp [LegacyHook.Fire, hc]

/-- C4 witness: a concrete filter-only hook returns success and the
filtered merged mapping, for a succeeding and a failing formatter
alike. -/
theorem legacy_fire_filter_only_mode_witness :
    (NewFilterHookWithPfx Unit "_").Fire fmtFailU entryPfx =
      (.ok (),
        filterHookOnly (NewFilterHookWithPfx Unit "_").hookOnlyPfx
          (mergeFields entryPfx.data
            (NewFilterHookWithPfx Unit "_").alwaysSentFields))
  ∧ (NewFilterHookWithPfx Unit "_").Fire fmtFailU entryPfx =
      (NewFilterHookWithPfx Unit "_").Fire fmtOkU entryPfx :=
  legacy_fire_filter_only_mode Unit (NewFilterHookWithPfx Unit "_")
    fmtFailU fmtOkU entryPfx rfl

/-- C8: with the empty hook-only prefix the filter removes nothing:
filterHookOnly with prefix "" is the identity even though every key has
the empty string as a prefix, and a hook built by NewFilterHook (default
empty prefix, no static fields) leaves every entry's field mapping
unchanged by Fire. -/
theorem empty_prefix_filter_is_identity (β : Type) (m : Fields) (k : String)
    (fmt : String → Entry → String → Except Err β) (e : Entry) :
    filterHookOnly "" m = m
  ∧ hasPrefix k "" = true
  ∧ ((NewFilterHook β).Fire fmt e).2 = e.data := by
  refine ⟨by simp [filterHookOnly], by simp [hasPrefix, List.isPrefixOf], ?_⟩
  funext k'
  simp [LegacyHook.Fire, NewFilterHook, NewFilterHookWithPfx, filterHookOnly,
    mergeFields, emptyFields]
  cases e.data k' <;> rfl

/-- C1 counterexample: for LegacyHook.Fire with prefix "_" and the static
field `_h` absent from the entry, after Fire the key `_h` is NOT present
with the static value — the deferred prefix filter deleted it — refuting
the claim for LegacyHook.alwaysSentFields. -/
theorem static_field_lost_to_prefix_filter :
    entryEmpty.data "_h" = none
  ∧ legacyHookPfxStatic.alwaysSentFields "_h" = some (.str "v")
  ∧ (legacyHookPfxStatic.Fire fmtOkU entryEmpty).2 "_h" = none :=
  ⟨rfl, rfl, rfl⟩

/-- Helper: the prefix filter leaves a key alone when the prefix is
empty or the key does not start with it. -/
theorem filterHookOnly_untouched (pfx : String) (m : Fields) (k : String)
    (hc : pfx = "" ∨ hasPrefix k pfx = false) : filterHookOnly pfx m k = m k := by
  rcases hc with hc | hc
  · simp [filterHookOnly, hc]
  · unfold filterHookOnly
    split_ifs <;> simp_all

/-- C1 amended: after Hook.Fire, every context key absent from the entry
is present with the context value and every entry key keeps its value;
the same holds after LegacyHook.Fire for keys the prefix filter leaves
alone (the configured prefix is empty or the key does not start with
it) — keys matching a nonempty prefix are deleted by the deferred
filter, so the unrestricted claim fails for LegacyHook. -/
theorem fire_merges_static_without_overwriting (β : Type) :
    (∀ (h : Hook β) (e : Entry) (k : String) (r : Except Err Unit)
        (d : Fields), h.Fire e = some (r, d) →
      (e.data k = none → d k = h.ctx k)
      ∧ ∀ v, e.data k = some v → d k = some v)
  ∧ (∀ (hl : LegacyHook β) (fmt : String → Entry → String → Except Err β)
        (e : Entry) (k : String),
      (hl.hookOnlyPfx = "" ∨ hasPrefix k hl.hookOnlyPfx = false) →
        (e.data k = none → (hl.Fire fmt e).2 k = hl.alwaysSentFields k)
        ∧ ∀ v, e.data k = some v → (hl.Fire fmt e).2 k = some v) := by
  constructor
  · intro h e k r d hf
    have hd := hook_fire_data β h e r d hf
    subst hd
    exact ⟨fun he => by simp [mergeFields, he],
           fun v he => by simp [mergeFields, he]⟩
  · intro hl fmt e k hcond
    have hsnd : (hl.Fire fmt e).2 =
        filterHookOnly hl.hookOnlyPfx
          (mergeFields e.data hl.alwaysSentFields) := rfl
    rw [hsnd]
    rw [filterHookOnly_untouched hl.hookOnlyPfx _ k hcond]
    exact ⟨fun he => by simp [mergeFields, he],
           fun v he => by simp [mergeFields, he]⟩

/-- C1 witness: concrete merges — the context key `s` is added, the
entry key `a` keeps its value, for both hook variants. -/
theorem fire_merges_static_without_overwriting_witness :
    mergeFields entryA.data ctxS "s" = ctxS "s"
  ∧ mergeFields entryA.data ctxS "a" = some (JValue.str "av")
  ∧ (legacyHookPfxStatic.Fire fmtOkU entryA).2 "s" =
      legacyHookPfxStatic.alwaysSentFields "s"
  ∧ (legacyHookPfxStatic.Fire fmtOkU entryA).2 "a" = some (JValue.str "av") :=
  ⟨((fire_merges_static_without_overwriting Unit).1 hookS entryA "s"
      (.ok ()) (mergeFields entryA.data ctxS) rfl).1 rfl,
   ((fire_merges_static_without_overwriting Unit).1 hookS entryA "a"
      (.ok ()) (mergeFields entryA.data ctxS) rfl).2 (JValue.str "av") rfl,
   ((fire_merges_static_without_overwriting Unit).2 legacyHookPfxStatic
      fmtOkU entryA "s" (Or.inr (by decide))).1 rfl,
   ((fire_merges_static_without_overwriting Unit).2 legacyHookPfxStatic
      fmtOkU entryA "a" (Or.inr (by decide))).2 (JValue.str "av") rfl⟩

/-- C5: both Fire variants return the first error encountered from the
formatting step or the write step, as the exact underlying error with no
wrapping; when formatting fails the result does not depend on the writer
(the write is never attempted); when both steps succeed Fire returns
success. -/
theorem fire_first_error_exact (β : Type) :
    (∀ (w w' : β → Except Err Unit) (ctx : Fields)
        (f : Entry → Except Err β) (e : Entry) (err : Err),
      f { e with data := mergeFields e.data ctx } = .error err →
        Hook.Fire { conn := w, ctx := ctx, formatter := some f } e =
          some (.error err, mergeFields e.data ctx)
        ∧ Hook.Fire { conn := w, ctx := ctx, formatter := some f } e =
            Hook.Fire { conn := w', ctx := ctx, formatter := some f } e)
  ∧ (∀ (w : β → Except Err Unit) (ctx : Fields) (f : Entry → Except Err β)
        (e : Entry) (b : β) (err : Err),
      f { e with data := mergeFields e.data ctx } = .ok b →
      w b = .error err →
        Hook.Fire { conn := w, ctx := ctx, formatter := some f } e =
          some (.error err, mergeFields e.data ctx))
  ∧ (∀ (w : β → Except Err Unit) (ctx : Fields) (f : Entry → Except Err β)
        (e : Entry) (b : β),
      f { e with data := mergeFields e.data ctx } = .ok b → w b = .ok () →
        Hook.Fire { conn := w, ctx := ctx, formatter := some f } e =
          some (.ok (), mergeFields e.data ctx))
  ∧ (∀ (w w' : β → Except Err Unit) (app : String) (sf : Fields)
        (pfx : String) (fmt : String → Entry → String → Except Err β)
        (e : Entry) (err : Err),
      fmt app { e with data := mergeFields e.data sf } pfx = .error err →
        LegacyHook.Fire
            { conn := some w, appName := app, alwaysSentFields := sf,
              hookOnlyPfx := pfx } fmt e =
          (.error err, filterHookOnly pfx (mergeFields e.data sf))
        ∧ LegacyHook.Fire
              { conn := some w, appName := app, alwaysSentFields := sf,
                hookOnlyPfx := pfx } fmt e =
            LegacyHook.Fire
              { conn := some w', appName := app, alwaysSentFields := sf,
                hookOnlyPfx := pfx } fmt e)
  ∧ (∀ (w : β → Except Err Unit) (app : String) (sf : Fields)
        (pfx : String) (fmt : String → Entry → String → Except Err β)
        (e : Entry) (b : β) (err : Err),
      fmt app { e with data := mergeFields e.data sf } pfx = .ok b →
      w b = .error err →
        LegacyHook.Fire
            { conn := some w, appName := app, alwaysSentFields := sf,
              hookOnlyPfx := pfx } fmt e =
          (.error err, filterHookOnly pfx (mergeFields e.data sf)))
  ∧ (∀ (w : β → Except Err Unit) (app : String) (sf : Fields)
        (pfx : String) (fmt : String → Entry → String → Except Err β)
        (e : Entry) (b : β),
      fmt app { e with data := mergeFields e.data sf } pfx = .ok b →
      w b = .ok () →
        LegacyHook.Fire
            { conn := some w, appName := app, alwaysSentFields := sf,
              hookOnlyPfx := pfx } fmt e =
          (.ok (), filterHookOnly pfx (mergeFields e.data sf))) := by
  refine ⟨fun w w' ctx f e err hf => ⟨?_, ?_⟩,
          fun w ctx f e b err hf hw => ?_,
          fun w ctx f e b hf hw => ?_,
          fun w w' app sf pfx fmt e err hf => ⟨?_, ?_⟩,
          fun w app sf pfx fmt e b err hf hw => ?_,
          fun w app sf pfx fmt e b hf hw => ?_⟩ <;>
    simp [Hook.Fire, LegacyHook.Fire, hf] <;>
    simp [hw]

/-- C5 witness: the six cases at concrete hooks — format error surfaced
exactly and writer-independent, write error surfaced exactly, success,
for both variants. -/
theorem fire_first_error_exact_witness :
    (hookFmtFail.Fire entryEmpty =
        some (.error "format error", mergeFields entryEmpty.data emptyFields)
      ∧ hookFmtFail.Fire entryEmpty = hookFmtFailWFail.Fire entryEmpty)
  ∧ hookWFail.Fire entryEmpty =
      some (.error "write error", mergeFields entryEmpty.data emptyFields)
  ∧ hookAllOk.Fire entryEmpty =
      some (.ok (), mergeFields entryEmpty.data emptyFields)
  ∧ (lhookWOk.Fire fmtFailU entryEmpty =
        (.error "format error",
          filterHookOnly "" (mergeFields entryEmpty.data emptyFields))
      ∧ lhookWOk.Fire fmtFailU entryEmpty = lhookWFail.Fire fmtFailU entryEmpty)
  ∧ lhookWFail.Fire fmtOkU entryEmpty =
      (.error "write error",
        filterHookOnly "" (mergeFields entryEmpty.data emptyFields))
  ∧ lhookWOk.Fire fmtOkU entryEmpty =
      (.ok (), filterHookOnly "" (mergeFields entryEmpty.data emptyFields)) :=
  ⟨(fire_first_error_exact Unit).1 okWriter failWriter emptyFields fFailU
      entryEmpty "format error" rfl,
   (fire_first_error_exact Unit).2.1 failWriter emptyFields fOkU
      entryEmpty () "write error" rfl rfl,
   (fire_first_error_exact Unit).2.2.1 okWriter emptyFields fOkU
      entryEmpty () rfl rfl,
   (fire_first_error_exact Unit).2.2.2.1 okWriter failWriter "app"
      emptyFields "" fmtFailU entryEmpty "format error" rfl,
   (fire_first_error_exact Unit).2.2.2.2.1 failWriter "app" emptyFields
      "" fmtOkU entryEmpty () "write error" rfl rfl,
   (fire_first_error_exact Unit).2.2.2.2.2 okWriter "app" emptyFields
      "" fmtOkU entryEmpty () rfl rfl⟩

/-- C6: serializing the round-trip event with application name test1
produces exactly the expected JSON object: the event's fields plus the
five reserved keys, with @version constantly "1". -/
theorem logstash_default_record_round_trip :
    logstashRecord "test1" "1" entryRT = expectedRT := by
  funext k
  simp only [logstashRecord, expectedRT, entryRT, Level.name, zeroTime]
  split_ifs <;> simp_all

/-- C10: validation requires no formatter source — for Options with a
valid connection source and neither application name nor custom
formatter, validOptions succeeds; whenever New succeeds on such Options
the resulting hook's formatter is nil and Fire on it dereferences the
nil formatter (the crash result none) — Fire carries the implicit
precondition that a formatter source was configured. -/
theorem new_nil_formatter_precondition (β : Type)
    (dial : String → String → Except Err (β → Except Err Unit))
    (defFmt : String → String → Entry → Except Err β)
    (opts : Options β) (h : Hook β) (e : Entry) :
    (connSourceOk opts → opts.appName = "" → opts.formatter = none →
      validOptions opts = none)
  ∧ (opts.appName = "" → opts.formatter = none →
      New dial defFmt opts = .ok h → h.formatter = none ∧ h.Fire e = none) := by
  constructor
  · intro hcs happ hfmt
    unfold validOptions
    rcases hcs with ⟨h1, h2, h3⟩ | ⟨h1, h2, h3⟩ <;>
      split_ifs <;> simp_all
  · intro happ hfmt hnew
    simp only [New, happ, hfmt] at hnew
    split at hnew
    · exact absurd hnew (by simp)
    · split at hnew
      · exact absurd hnew (by simp)
      · simp at hnew
        subst hnew
        exact ⟨rfl, rfl⟩

/-- C10 witness: with only a writer configured, validation succeeds, New
yields the nil-formatter hook, and Fire on it crashes. -/
theorem new_nil_formatter_precondition_witness :
    validOptions optsConnOnly = none
  ∧ hookNilFmt.formatter = none
  ∧ hookNilFmt.Fire entryEmpty = none :=
  ⟨(new_nil_formatter_precondition Unit dialOkU defFmtU optsConnOnly
      hookNilFmt entryEmpty).1 (Or.inl ⟨rfl, rfl, rfl⟩) rfl rfl,
   ((new_nil_formatter_precondition Unit dialOkU defFmtU optsConnOnly
      hookNilFmt entryEmpty).2 rfl rfl rfl).1,
   ((new_nil_formatter_precondition Unit dialOkU defFmtU optsConnOnly
      hookNilFmt entryEmpty).2 rfl rfl rfl).2⟩
